import Mathlib

/-!
Shallow embedding of the translation/codec layer of the Kakarot RPC adapter
(`crates/core/src/client/mod.rs` and `crates/core/src/models/event.rs`).

Machine integers and field elements are modelled as `Nat` with explicit
modular reductions: a Starknet field element is a `Nat` below the Stark
prime `pStark`; a 256-bit word is a `Nat` below `2 ^ 256`; byte strings are
`List Nat` with entries below 256. Fallible Rust code returning
`Result<_, EthApiError>` is modelled with `Except EthApiError _`, and code
that can panic (an `unwrap` on an `Err`, a `todo!()`) with the `Outcome`
type which has an explicit `panic` constructor.
-/

namespace KakarotRpc

/-- The Stark prime `2^251 + 17·2^192 + 1`: the modulus of the
`FieldElement` arithmetic used by the native ledger. -/
def pStark : Nat := 2 ^ 251 + 17 * 2 ^ 192 + 1

/-- `FieldElement::MAX`, the maximum field element `pStark - 1`. -/
def feltMax : Nat := pStark - 1

/-- Field element addition (`Add for FieldElement`): addition mod `pStark`. -/
def feltAdd (a b : Nat) : Nat := (a + b) % pStark

/-- Field element multiplication (`Mul for FieldElement`): multiplication
mod `pStark`. -/
def feltMul (a b : Nat) : Nat := (a * b) % pStark

/-- Fixed-width big-endian byte serialization: `beFixed k n` is the
`k`-byte big-endian representation of `n % 256^k`. `beFixed 32` models
`FieldElement::to_bytes_be` / `H256::from` on a 32-byte buffer. -/
def beFixed : Nat → Nat → List Nat
  | 0, _ => []
  | k + 1, n => beFixed k (n / 256) ++ [n % 256]

/-- The value of a big-endian byte string (`BigUint::from_bytes_be` /
reading a hex string of the bytes). -/
def beVal (bs : List Nat) : Nat := bs.foldl (fun a b => 256 * a + b) 0

/-- The length of the minimal big-endian representation of `n`
(one byte for `0`, matching `BigUint::to_bytes_be` which returns `[0]`
for zero). -/
def byteLen (n : Nat) : Nat :=
  if _h : n < 256 then 1 else byteLen (n / 256) + 1
decreasing_by exact Nat.div_lt_self (by omega) (by omega)

/-- Minimal big-endian byte serialization, `BigUint::to_bytes_be`:
no leading zero bytes, except that `0` serializes to the single byte `0`. -/
def minBeBytes (n : Nat) : List Nat := beFixed (byteLen n) n

/-! ## Error type and event model

`EthApiError` (`crates/core/src/client/errors.rs` is not part of the
provided sources): the variants used by the provided sources are
`OtherError` carrying a message; the error taxonomy of the spec additionally
names `NotSupported` for explicitly unimplemented operations. -/

/-- Modelled from the spec: error taxonomy (§7). The provided sources only
construct `OtherError` (from `anyhow` messages); `NotSupported` is the
variant the spec names for explicitly unimplemented operations. -/
inductive EthApiError where
  | OtherError : String → EthApiError
  | NotSupported : EthApiError
deriving DecidableEq, Repr

/-- A Starknet event (`starknet::core::types::Event`): emitting contract,
keys and data, all field elements. -/
structure Event where
  from_address : Nat
  keys : List Nat
  data : List Nat
deriving DecidableEq, Repr

/-- An Ethereum log (`reth_rpc_types::Log`). Topics are 32-byte strings,
data a byte string. -/
structure Log where
  address : Nat
  topics : List (List Nat)
  data : List Nat
  blockHash : Option (List Nat)
  blockNumber : Option Nat
  transactionHash : Option (List Nat)
  logIndex : Option Nat
  transactionIndex : Option Nat
  removed : Bool
deriving DecidableEq, Repr

/-! ## Topic reconstruction, path 1: `StarknetEvent::to_eth_log`
(`models/event.rs`). -/

/-- One topic in `to_eth_log`: `low + 2^128 * high` computed exactly over
`BigUint`, serialized to minimal big-endian bytes and prepended with zero
bytes up to 32 (`once(0u8).cycle().take(32 - bytes.len())`). Inputs of 32
bytes or less are assumed (the source would panic on a wider value). -/
def bigUintTopic (low high : Nat) : List Nat :=
  let result := low + 2 ^ 128 * high
  let bytes := minBeBytes result
  List.replicate (32 - bytes.length) 0 ++ bytes

/-- The topic list of `to_eth_log`: `keys.chunks(2)` mapped and collected;
a trailing chunk of one element is an error (message "High value does not exist" in the source, with a contraction). -/
def topicsOf : List Nat → Except EthApiError (List (List Nat))
  | [] => .ok []
  | [_] => .error (.OtherError "Not a convertible event: High value doesn\x27t exist")
  | low :: high :: rest => (topicsOf rest).map (bigUintTopic low high :: ·)

/-- Modelled from the spec: `Felt252Wrapper → Address` conversion
(`models/felt.rs` is not part of the provided sources); §4.3 step 3: the
foreign address is the low-20-byte view of the field element. -/
def feltToAddress (f : Nat) : Nat := f % 2 ^ 160

/-- `StarknetEvent::to_eth_log` (`models/event.rs`): reject events whose
emitter is not the Kakarot contract, split the last key off as the EVM
contract address, reconstruct topics pairwise with exact `BigUint`
arithmetic, concatenate the 32 big-endian bytes of each data felt. -/
def to_eth_log (kakarotAddress : Nat) (e : Event)
    (blockHash : Option (List Nat)) (blockNumber : Option Nat)
    (transactionHash : Option (List Nat)) (logIndex : Option Nat)
    (transactionIndex : Option Nat) : Except EthApiError Log :=
  if e.from_address ≠ kakarotAddress then
    .error (.OtherError "Kakarot Filter: Event is not part of Kakarot")
  else
    match e.keys.getLast? with
    | none => .error (.OtherError "Kakarot Filter: Event is not an Kakarot evm event")
    | some evmContractAddress =>
      (topicsOf e.keys.dropLast).map fun topics =>
        { address := feltToAddress evmContractAddress
          topics := topics
          data := e.data.flatMap (beFixed 32)
          blockHash := blockHash
          blockNumber := blockNumber
          transactionHash := transactionHash
          logIndex := logIndex
          transactionIndex := transactionIndex
          removed := false }

/-! ## Topic reconstruction, path 2: the receipt assembly loop in
`KakarotClient::transaction_receipt` (`client/mod.rs`). -/

/-- The per-pair topic felts of the receipt loop: for indices `0, 2, 4, …`
compute `keys[i] + keys[i+1] * 2^128` in `FieldElement` arithmetic
(i.e. mod `pStark`), substituting `FieldElement::ZERO` for a missing
`keys[i+1]`. -/
def receiptTopicFelts : List Nat → List Nat
  | [] => []
  | [low] => [feltAdd low (feltMul 0 (2 ^ 128))]
  | low :: high :: rest => feltAdd low (feltMul high (2 ^ 128)) :: receiptTopicFelts rest

/-- Topics of the receipt loop: each reconstructed felt serialized with
`to_bytes_be` into an `H256` (32 bytes big-endian). -/
def receiptTopics (keys : List Nat) : List (List Nat) :=
  (receiptTopicFelts keys).map (beFixed 32)

/-- Modelled from the spec: helper `vec_felt_to_bytes`
(`client/helpers.rs` is not part of the provided sources); §4.3 step 5:
the big-endian bytes of each element, concatenated in order. -/
def vec_felt_to_bytes (felts : List Nat) : List Nat :=
  felts.flatMap (beFixed 32)

/-- One iteration of the event loop in `transaction_receipt`: the emitter
address is resolved with `safe_get_evm_address` at the latest block
(abstracted as the total function `resolve`), topics come from the felt
pair reconstruction, data from `vec_felt_to_bytes`; all per-log metadata
fields are hardcoded to `None` and `removed` to `false`. -/
def eventToReceiptLog (resolve : Nat → Nat) (e : Event) : Log :=
  { address := resolve e.from_address
    topics := receiptTopics e.keys
    data := vec_felt_to_bytes e.data
    blockHash := none
    blockNumber := none
    transactionHash := none
    transactionIndex := none
    logIndex := none
    removed := false }

/-- The full event loop of `transaction_receipt`: every event of the
native receipt is converted, in order, with no filtering and no fallible
step. -/
def receiptLogs (resolve : Nat → Nat) (events : List Event) : List Log :=
  events.map (eventToReceiptLog resolve)

/-- `starknet::core::types::TransactionStatus`. -/
inductive StarknetTransactionStatus where
  | rejected
  | pending
  | acceptedOnL1
  | acceptedOnL2
deriving DecidableEq, Repr

/-- The status mapping of `transaction_receipt`:
`{Rejected, Pending} → 0`, `{AcceptedOnL1, AcceptedOnL2} → 1`. -/
def statusCode : StarknetTransactionStatus → Nat
  | .rejected => 0
  | .pending => 0
  | .acceptedOnL1 => 1
  | .acceptedOnL2 => 1

/-- `reth_rpc_types::TransactionReceipt`, restricted to the fields the
source populates. -/
structure TransactionReceipt where
  transactionHash : Option (List Nat)
  transactionIndex : Option Nat
  blockHash : Option (List Nat)
  blockNumber : Option Nat
  fromAddress : Nat
  toAddress : Option Nat
  cumulativeGasUsed : Nat
  gasUsed : Option Nat
  contractAddress : Option Nat
  logs : List Log
  stateRoot : Option (List Nat)
  statusCode : Option Nat
  effectiveGasPrice : Nat
  transactionType : Nat
deriving DecidableEq, Repr

/-- The invoke branch of `KakarotClient::transaction_receipt`: given the
fields of a non-pending invoke receipt fetched from the provider
(`transaction_hash`, `status`, `block_hash`, `block_number`, `events`),
the Starknet sender address recovered from the originating transaction,
and the `from`/`to` of its Ethereum form, assemble the Ethereum receipt.
Address resolution (`safe_get_evm_address` at the latest block) is
abstracted as the total function `resolve`. -/
def transaction_receipt_invoke (resolve : Nat → Nat)
    (transactionHash : Nat) (status : StarknetTransactionStatus)
    (blockHash : Nat) (blockNumber : Nat) (events : List Event)
    (senderStarknetAddress : Nat) (fromAddress : Nat) (toAddress : Option Nat) :
    TransactionReceipt :=
  { transactionHash := some (beFixed 32 transactionHash)
    transactionIndex := none
    blockHash := some (beFixed 32 blockHash)
    blockNumber := some blockNumber
    fromAddress := fromAddress
    toAddress := toAddress
    cumulativeGasUsed := 1000000
    gasUsed := some 500000
    contractAddress := some (resolve senderStarknetAddress)
    logs := receiptLogs resolve events
    stateRoot := none
    statusCode := some (statusCode status)
    effectiveGasPrice := 1000000
    transactionType := 0 }

/-! ## `KakarotClient::call_view`: building the interpreter `eth_call`
calldata (`client/mod.rs`). -/

/-- `Felt252Wrapper::from(Address)`: a 20-byte address embedded as a field
element (its big-endian value, which is below `2^160 < pStark`). -/
def addressToFelt (addr : Nat) : Nat := addr % 2 ^ 160

/-- The `eth_call` calldata built by `call_view`:
`vec![address_felt, FieldElement::MAX, ZERO, ZERO, calldata.len()]`
followed by one felt per calldata byte. The Ethereum address of the target is
embedded directly as a felt; no Starknet-address resolution happens here. -/
def callViewCalldata (ethereumAddress : Nat) (calldata : List Nat) : List Nat :=
  addressToFelt ethereumAddress :: feltMax :: 0 :: 0 :: calldata.length :: calldata

/-- Wording of the spec for the `eth_call` argument list (§4.2, §6):
`[native_addr, MAX_FELT, 0, 0, len(calldata), ...calldata_as_felts]`
where `native_addr` is stated to be the resolved native (Starknet)
account id of the target address. -/
def specEthCallCalldata (nativeAddr : Nat) (calldata : List Nat) : List Nat :=
  nativeAddr :: feltMax :: 0 :: 0 :: calldata.length :: calldata

/-! ## Outcomes: success, error, or panic. -/

/-- The observable result of running a fallible Rust function that may
additionally panic (`unwrap`, `todo!`). -/
inductive Outcome (α : Type) where
  | ok : α → Outcome α
  | err : EthApiError → Outcome α
  | panic : String → Outcome α
deriving DecidableEq, Repr

/-! ## `KakarotClient::estimate_gas` (`client/mod.rs`). -/

/-- `reth_rpc_types::CallRequest` (external input shape); the fields are
never inspected by `estimate_gas`. -/
structure CallRequest where
  fromAddress : Option Nat := none
  toAddress : Option Nat := none
  gasPrice : Option Nat := none
  gas : Option Nat := none
  value : Option Nat := none
  input : Option (List Nat) := none
  nonce : Option Nat := none
  chainId : Option Nat := none
deriving DecidableEq, Repr

/-- `reth_primitives::BlockNumberOrTag`. -/
inductive BlockNumberOrTag where
  | number : Nat → BlockNumberOrTag
  | latest
  | earliest
  | pending
  | finalized
  | safe
deriving DecidableEq, Repr

/-- `reth_primitives::BlockId`. -/
inductive BlockId where
  | hash : Nat → BlockId
  | number : BlockNumberOrTag → BlockId
deriving DecidableEq, Repr

/-- `KakarotClient::estimate_gas`: the body is `todo!()`, which panics
unconditionally with the message "not yet implemented"; no code path
returns a value or an error. -/
def estimate_gas (_callRequest : CallRequest) (_blockNumber : Option BlockId) :
    Outcome Nat :=
  .panic "not yet implemented"

/-! ## `KakarotClient::fee_history` (`client/mod.rs`). -/

/-- Modelled from the spec: `BASE_FEE_PER_GAS`
(`client/constants.rs` is not part of the provided sources); §4.7: a fixed
protocol constant. Its exact value is immaterial to every statement below. -/
def BASE_FEE_PER_GAS : Nat := 1

/-- Fuel-driven base-10 digit extraction, most significant digit first;
the fuel bounds the number of divisions by 10 and is always supplied large
enough below. -/
def decDigitsAux : Nat → Nat → List Nat
  | 0, n => [n]
  | fuel + 1, n => if n < 10 then [n] else decDigitsAux fuel (n / 10) ++ [n % 10]

/-- The decimal digit string of `n`, most significant first
(`U256::to_string`, which prints decimal with no prefix; `[0]` for zero). -/
def decDigits (n : Nat) : List Nat := decDigitsAux n n

/-- Reading a digit string as hexadecimal (`usize::from_str_radix(s, 16)`
applied to a decimal-printed string: every decimal digit is a valid hex
digit, so the string is reinterpreted in base 16). -/
def hexOfDigits (ds : List Nat) : Nat := ds.foldl (fun a d => 16 * a + d) 0

/-- Block count as computed by `fee_history`:
`usize::from_str_radix(&block_count.to_string(), 16).unwrap_or(1)` — the
decimal print of the count reinterpreted as hexadecimal, falling back to 1
when the reinterpreted value overflows a 64-bit `usize`. -/
def blockCountUsize (blockCount : Nat) : Nat :=
  let h := hexOfDigits (decDigits blockCount)
  if h < 2 ^ 64 then h else 1

/-- `reth_rpc_types::FeeHistory`, restricted to the populated fields.
The `f64` gas-used ratios are represented as rationals; the source only
ever stores the literal `0.9` and performs no floating-point arithmetic. -/
structure FeeHistory where
  baseFeePerGas : List Nat
  gasUsedRatio : List ℚ
  oldestBlock : Nat
  reward : Option (List (List Nat))
deriving DecidableEq, Repr

/-- `KakarotClient::fee_history`: `block_count` is the value of the `U256`
argument (hence below `2^256`), `newestBlock` the tag argument, and
`providerBlockNumber` the `block_number()` provider result consulted for
the tags other than `Number` and `Earliest`. `oldest_block` is the `U256`
subtraction `U256::from(newest) - block_count` (wrapping, modelled mod
`2^256`). -/
def fee_history (blockCount : Nat) (newestBlock : BlockNumberOrTag)
    (providerBlockNumber : Except EthApiError Nat) : Except EthApiError FeeHistory :=
  let blockCountU := blockCountUsize blockCount
  let newestE : Except EthApiError Nat :=
    match newestBlock with
    | .number n => .ok n
    | .earliest => .ok 1
    | _ => providerBlockNumber
  newestE.map fun newest =>
    { baseFeePerGas := List.replicate (blockCountU + 1) BASE_FEE_PER_GAS
      gasUsedRatio := List.replicate blockCountU (9 / 10 : ℚ)
      oldestBlock := (2 ^ 256 + newest % 2 ^ 256 - blockCount % 2 ^ 256) % 2 ^ 256
      reward := none }

/-! ## `KakarotClient::token_balances` (`client/mod.rs`). -/

/-- One entry of `kakarot_getTokenBalances`
(`models/balance.rs`, shape as populated by `token_balances`). -/
structure TokenBalance where
  contractAddress : Nat
  tokenBalance : Option Nat
  error : Option String
deriving DecidableEq, Repr

/-- The result shape of `token_balances`. -/
structure TokenBalances where
  address : Nat
  tokenBalances : List TokenBalance
deriving DecidableEq, Repr

/-- Balance conversion in the success branch of `token_balances`:
`U256::from_str_radix(&bytes.to_string(), 16)` — the returned byte string
printed as `0x`-prefixed hex and parsed back, i.e. the big-endian value of
the bytes, failing iff it does not fit in 256 bits. -/
def u256FromBalanceBytes (bs : List Nat) : Option Nat :=
  if beVal bs < 2 ^ 256 then some (beVal bs) else none

/-- Modelled from the spec: the `Display` text of an `EthApiError`
(`client/errors.rs` is not part of the provided sources); only its
presence, never its content, matters below. -/
def ethApiErrorText : EthApiError → String
  | .OtherError msg => msg
  | .NotSupported => "NotSupported"

/-- The per-result mapping of `token_balances`: an `Ok` call result is
converted with `U256::from_str_radix(..).map_err(..).unwrap()` — a `panic`
when the conversion fails — into an entry carrying the balance and no
error; an `Err` call result becomes an entry carrying no balance and the
formatted error. `contract_address` is always the queried account
`address`, not the token contract. -/
def tokenBalanceEntries (address : Nat) :
    List (Except EthApiError (List Nat)) → Outcome (List TokenBalance)
  | [] => .ok []
  | .ok bs :: rest =>
    match u256FromBalanceBytes bs with
    | some v =>
      match tokenBalanceEntries address rest with
      | .ok entries =>
        .ok ({ contractAddress := address, tokenBalance := some v, error := none } :: entries)
      | .err e => .err e
      | .panic msg => .panic msg
    | none => .panic "Failed to convert token balance to U256"
  | .error e :: rest =>
    match tokenBalanceEntries address rest with
    | .ok entries =>
      .ok ({ contractAddress := address, tokenBalance := none
             error := some ("kakarot_getTokenBalances Error: " ++ ethApiErrorText e) } :: entries)
    | .err e2 => .err e2
    | .panic msg => .panic msg

/-- `KakarotClient::token_balances`, parameterized over the outcome of the
per-contract `call_view` lookups (issued concurrently with `join_all`, one
per token contract, in order): the batch result pairs the queried address
with the per-result entries. -/
def token_balances (address : Nat)
    (callResults : List (Except EthApiError (List Nat))) : Outcome TokenBalances :=
  match tokenBalanceEntries address callResults with
  | .ok entries => .ok { address := address, tokenBalances := entries }
  | .err e => .err e
  | .panic msg => .panic msg

/-! ## `KakarotClient::get_evm_address` / `safe_get_evm_address`
(`client/mod.rs`). -/

/-- `KakarotClient::get_evm_address`, parameterized over the provider
result for the `get_evm_address` entrypoint call: an error passes through;
an empty result list is an error; otherwise bytes `[12, 32)` of the
32-byte big-endian form of the first felt are the address. -/
def get_evm_address (providerResult : Except EthApiError (List Nat)) :
    Except EthApiError Nat :=
  match providerResult with
  | .error e => .error e
  | .ok felts =>
    match felts.head? with
    | none =>
      .error (.OtherError "Kakarot Core: Failed to get EVM address from smart contract on Kakarot")
    | some f => .ok (beVal ((beFixed 32 f).drop 12))

/-- Modelled from the spec: helper `starknet_address_to_ethereum_address`
(`client/helpers.rs` is not part of the provided sources); §4.1: slices
the big-endian 32-byte representation of the native id to bytes
`[12, 32)`. -/
def starknet_address_to_ethereum_address (starknetAddress : Nat) : Nat :=
  beVal ((beFixed 32 starknetAddress).drop 12)

/-- `KakarotClient::safe_get_evm_address`:
`get_evm_address(..).unwrap_or_else(|_| starknet_address_to_ethereum_address(..))`
— a total function into addresses. -/
def safe_get_evm_address (providerResult : Except EthApiError (List Nat))
    (starknetAddress : Nat) : Nat :=
  match get_evm_address providerResult with
  | .ok a => a
  | .error _ => starknet_address_to_ethereum_address starknetAddress

/-! Part 2: theorems. General byte-serialization lemmas first, then the
claim theorems with their witnesses and counterexamples. -/

theorem beFixed_length (k n : Nat) : (beFixed k n).length = k := by
  induction k generalizing n with
  | zero => rfl
  | succ k ih => simp [beFixed, ih]

theorem beFixed_zero (k : Nat) : beFixed k 0 = List.replicate k 0 := by
  induction k with
  | zero => rfl
  | succ k ih => simp [beFixed, ih, List.replicate_succ' (n := k)]

/-- Padding out a fixed-width big-endian representation with leading zero
bytes gives the wider fixed-width representation. -/
theorem beFixed_eq_replicate_append (k j n : Nat) (hjk : j ≤ k) (hn : n < 256 ^ j) :
    beFixed k n = List.replicate (k - j) 0 ++ beFixed j n := by
  induction k generalizing j n with
  | zero =>
    have hj : j = 0 := Nat.le_zero.mp hjk
    subst hj; simp
  | succ k ih =>
    cases j with
    | zero =>
      have hn0 : n = 0 := by simpa using hn
      subst hn0
      simp [beFixed_zero]
    | succ j =>
      have hdiv : n / 256 < 256 ^ j := by
        have : n < 256 * 256 ^ j := by
          rw [pow_succ] at hn; omega
        exact Nat.div_lt_of_lt_mul this
      have ihk := ih j (n / 256) (Nat.le_of_succ_le_succ hjk) hdiv
      show beFixed k (n / 256) ++ [n % 256] = _
      rw [ihk]
      have : beFixed (j + 1) n = beFixed j (n / 256) ++ [n % 256] := rfl
      rw [this, Nat.succ_sub_succ, List.append_assoc]

theorem lt_pow_byteLen (n : Nat) : n < 256 ^ byteLen n := by
  by_cases h : n < 256
  · rw [byteLen, dif_pos h]; simpa using h
  · rw [byteLen, dif_neg h]
    have ih := lt_pow_byteLen (n / 256)
    have hm := Nat.div_add_mod n 256
    have hr : n % 256 < 256 := Nat.mod_lt _ (by omega)
    calc n < (n / 256 + 1) * 256 := by omega
    _ ≤ 256 ^ byteLen (n / 256) * 256 := Nat.mul_le_mul_right 256 ih
    _ = 256 ^ (byteLen (n / 256) + 1) := by rw [pow_succ]
decreasing_by exact Nat.div_lt_self (by omega) (by omega)

theorem byteLen_le (n k : Nat) (hk : 1 ≤ k) (hn : n < 256 ^ k) : byteLen n ≤ k := by
  by_cases h : n < 256
  · rw [byteLen, dif_pos h]; exact hk
  · rw [byteLen, dif_neg h]
    have hk2 : 2 ≤ k := by
      rcases Nat.lt_or_ge k 2 with hlt | hge
      · exfalso
        have hk1 : k = 1 := by omega
        subst hk1
        rw [pow_one] at hn
        omega
      · exact hge
    have hdiv : n / 256 < 256 ^ (k - 1) := by
      apply Nat.div_lt_of_lt_mul
      have : 256 ^ (k - 1) * 256 = 256 ^ k := by
        rw [← pow_succ]
        congr 1
        omega
      omega
    have := byteLen_le (n / 256) (k - 1) (by omega) hdiv
    omega
decreasing_by exact Nat.div_lt_self (by omega) (by omega)

/-- For values below `2^256`, the "minimal big-endian bytes of the source,
left-padded with zeros to 32 bytes" equals the 32-byte fixed-width
big-endian form. -/
theorem replicate_minBeBytes_eq_beFixed (n : Nat) (hn : n < 2 ^ 256) :
    List.replicate (32 - (minBeBytes n).length) 0 ++ minBeBytes n = beFixed 32 n := by
  have h256 : n < 256 ^ 32 := by
    have : (256 : Nat) ^ 32 = 2 ^ 256 := by norm_num
    omega
  have hlen : (minBeBytes n).length = byteLen n := beFixed_length _ _
  have hle : byteLen n ≤ 32 := byteLen_le n 32 (by omega) h256
  rw [hlen]
  exact (beFixed_eq_replicate_append 32 (byteLen n) n hle (lt_pow_byteLen n)).symm

/-- Adding a residue mod `pStark` and reducing again is reducing the plain
sum. -/
theorem add_mod_pStark (a b : Nat) : (a + b % pStark) % pStark = (a + b) % pStark := by
  conv_lhs => rw [Nat.add_mod]
  rw [Nat.mod_mod_of_dvd _ dvd_rfl, ← Nat.add_mod]

/-- On a topic-key list of odd length, the `to_eth_log` topic collection
fails at the trailing singleton chunk. -/
theorem topicsOf_odd (ks : List Nat) (h : ks.length % 2 = 1) :
    topicsOf ks = .error (.OtherError "Not a convertible event: High value doesn\x27t exist") := by
  match ks with
  | [] => simp at h
  | [k] => rfl
  | a :: b :: rest =>
    have hr : rest.length % 2 = 1 := by
      simp only [List.length_cons] at h
      omega
    show (topicsOf rest).map _ = _
    rw [topicsOf_odd rest hr]
    rfl

/-- Appending a final unpaired low key to an even-length key list appends
one reconstructed topic felt equal to that key reduced mod `pStark`
(the receipt loop substitutes `FieldElement::ZERO` for the missing high). -/
theorem receiptTopicFelts_append (ks : List Nat) (low : Nat) (h : ks.length % 2 = 0) :
    receiptTopicFelts (ks ++ [low]) = receiptTopicFelts ks ++ [low % pStark] := by
  match ks with
  | [] =>
    show [feltAdd low (feltMul 0 (2 ^ 128))] = _
    simp [feltAdd, feltMul, receiptTopicFelts]
  | [a] => simp at h
  | a :: b :: rest =>
    have hr : rest.length % 2 = 0 := by
      simp only [List.length_cons] at h
      omega
    show feltAdd a (feltMul b (2 ^ 128)) :: receiptTopicFelts (rest ++ [low]) = _
    rw [receiptTopicFelts_append rest low hr]
    rfl

/-- Characterization of the per-result entry mapping of `token_balances`
when every successful call result parses as a 256-bit quantity: one entry
per result, in order, a balance for each `Ok` and an error text for each
`Err`. -/
theorem tokenBalanceEntries_eq (address : Nat)
    (results : List (Except EthApiError (List Nat)))
    (hparse : ∀ bs, Except.ok bs ∈ results → beVal bs < 2 ^ 256) :
    tokenBalanceEntries address results = .ok (results.map fun r =>
      match r with
      | .ok bs => { contractAddress := address, tokenBalance := some (beVal bs), error := none }
      | .error e =>
        { contractAddress := address, tokenBalance := none
          error := some ("kakarot_getTokenBalances Error: " ++ ethApiErrorText e) }) := by
  induction results with
  | nil => rfl
  | cons r rest ih =>
    have ihr := ih (fun bs hbs => hparse bs (List.mem_cons_of_mem _ hbs))
    cases r with
    | ok bs =>
      have hp : beVal bs < 2 ^ 256 := hparse bs (List.mem_cons_self _ _)
      have hu : u256FromBalanceBytes bs = some (beVal bs) := by
        rw [u256FromBalanceBytes, if_pos hp]
      simp only [tokenBalanceEntries, hu, ihr, List.map_cons]
    | error e =>
      simp only [tokenBalanceEntries, ihr, List.map_cons]

/-- Every entry produced by the entry mapping of `token_balances` carries
the queried account address in its `contract_address` field. -/
theorem tokenBalanceEntries_address (address : Nat)
    (results : List (Except EthApiError (List Nat))) (entries : List TokenBalance)
    (h : tokenBalanceEntries address results = .ok entries) :
    (entries.all fun tb => tb.contractAddress == address) = true := by
  induction results generalizing entries with
  | nil =>
    have he : entries = [] := by
      have : Outcome.ok (α := List TokenBalance) [] = .ok entries := h
      cases this
      rfl
    subst he
    rfl
  | cons r rest ih =>
    cases r with
    | ok bs =>
      rw [tokenBalanceEntries] at h
      cases hu : u256FromBalanceBytes bs with
      | none => rw [hu] at h; cases h
      | some v =>
        rw [hu] at h
        cases hrest : tokenBalanceEntries address rest with
        | ok entries2 =>
          rw [hrest] at h
          cases h
          simp only [List.all_cons, Bool.and_eq_true]
          exact ⟨by simp, ih entries2 hrest⟩
        | err e2 => rw [hrest] at h; cases h
        | panic m => rw [hrest] at h; cases h
    | error e =>
      rw [tokenBalanceEntries] at h
      cases hrest : tokenBalanceEntries address rest with
      | ok entries2 =>
        rw [hrest] at h
        cases h
        simp only [List.all_cons, Bool.and_eq_true]
        exact ⟨by simp, ih entries2 hrest⟩
      | err e2 => rw [hrest] at h; cases h
      | panic m => rw [hrest] at h; cases h

/-- C1, counterexample: the claim fails as stated. In the receipt-assembly
path the reconstruction is `FieldElement` arithmetic mod `pStark`, so for
the 128-bit pair `low = 0`, `high = 2^124` (whose exact value
`2^252` exceeds `pStark`) the produced topic is the serialization of
`2^252 - pStark`, not of the exact integer `low + high * 2^128`. -/
theorem c1_topic_reconstruction_counterexample :
    (0 : Nat) < 2 ^ 128 ∧ (2 ^ 124 : Nat) < 2 ^ 128 ∧
    receiptTopics [0, 2 ^ 124] ≠ [beFixed 32 (0 + 2 ^ 124 * 2 ^ 128)] := by
  refine ⟨by norm_num, by norm_num, by decide⟩

/-- C1 (amended): for every 128-bit pair `(low, high)`, the event-to-log
conversion (`to_eth_log`) produces the exact topic `low + high * 2^128`,
serialized big-endian and left-padded with zero bytes to 32 bytes; the
receipt-assembly loop produces the same exact topic provided
`low + high * 2^128 < pStark` (in general it reduces mod the Stark
prime). -/
theorem c1_topic_reconstruction (low high : Nat)
    (hlow : low < 2 ^ 128) (hhigh : high < 2 ^ 128) :
    bigUintTopic low high = beFixed 32 (low + high * 2 ^ 128) ∧
    (low + high * 2 ^ 128 < pStark →
      receiptTopics [low, high] = [beFixed 32 (low + high * 2 ^ 128)]) := by
  have hv : low + high * 2 ^ 128 < 2 ^ 256 := by
    have h1 : high * 2 ^ 128 ≤ (2 ^ 128 - 1) * 2 ^ 128 :=
      Nat.mul_le_mul_right _ (by omega)
    have h2 : (2 ^ 128 - 1) * 2 ^ 128 + 2 ^ 128 = 2 ^ 256 := by norm_num
    omega
  constructor
  · show List.replicate (32 - (minBeBytes (low + 2 ^ 128 * high)).length) 0 ++
        minBeBytes (low + 2 ^ 128 * high) = _
    rw [Nat.mul_comm (2 ^ 128) high]
    exact replicate_minBeBytes_eq_beFixed _ hv
  · intro hp
    show [beFixed 32 (feltAdd low (feltMul high (2 ^ 128)))] = _
    have hfelt : feltAdd low (feltMul high (2 ^ 128)) = low + high * 2 ^ 128 := by
      rw [feltAdd, feltMul, add_mod_pStark, Nat.mod_eq_of_lt hp]
    rw [hfelt]

/-- C1, witness: the concrete case `low = 1`, `high = 0` yields the topic
consisting of 31 zero bytes followed by `0x01` in both paths. -/
theorem c1_topic_reconstruction_witness :
    bigUintTopic 1 0 = List.replicate 31 0 ++ [1] ∧
    receiptTopics [1, 0] = [List.replicate 31 0 ++ [1]] := by
  obtain ⟨h1, h2⟩ := c1_topic_reconstruction 1 0 (by decide) (by decide)
  refine ⟨?_, ?_⟩
  · rw [h1]; decide
  · rw [h2 (by decide)]; decide

/-- C2, counterexample: the claim fails as stated. The receipt-assembly
loop performs no emitter filtering at all: with Kakarot (interpreter)
address `1`, a receipt holding one event emitted by contract `2` still
contains exactly one log for it, so events from other emitters do appear
as logs; only the separate `to_eth_log` conversion (unused by
`transaction_receipt`) rejects such an event. -/
theorem c2_event_skipping_counterexample :
    (transaction_receipt_invoke (fun sa => sa % 2 ^ 160) 9 .acceptedOnL2 7 3
        [{ from_address := 2, keys := [5], data := [] }] 4 11 none).logs.length = 1 ∧
    to_eth_log 1 { from_address := 2, keys := [5], data := [] } none none none none none =
      .error (.OtherError "Kakarot Filter: Event is not part of Kakarot") := by
  exact ⟨rfl, rfl⟩

/-- C2 (amended): for every invoke-kind, non-pending native receipt, the
receipt translation converts every event totally: it never fails on an
event, never skips one (one log per event, in order), and applies no
emitter filter — each log carries the resolved address of its native
emitter, whether or not that emitter is the interpreter contract. -/
theorem c2_receipt_converts_every_event (resolve : Nat → Nat) (transactionHash : Nat)
    (status : StarknetTransactionStatus) (blockHash blockNumber : Nat)
    (events : List Event) (senderStarknetAddress fromAddress : Nat)
    (toAddress : Option Nat) :
    (transaction_receipt_invoke resolve transactionHash status blockHash blockNumber
        events senderStarknetAddress fromAddress toAddress).logs.length = events.length ∧
    (transaction_receipt_invoke resolve transactionHash status blockHash blockNumber
        events senderStarknetAddress fromAddress toAddress).logs.map (fun log => log.address)
      = events.map (fun e => resolve e.from_address) := by
  constructor
  · simp [transaction_receipt_invoke, receiptLogs]
  · simp [transaction_receipt_invoke, receiptLogs, eventToReceiptLog, List.map_map,
      Function.comp]

/-- C3, counterexample: the claim fails as stated. `call_view` never
resolves the target address to its native (Starknet) account id: the first
calldata element is the Ethereum address itself embedded as a felt. With
target address `1` and any resolution whose native account id is, e.g.,
`7 ≠ 1`, the built calldata differs from the claimed list headed by the
native id. -/
theorem c3_eth_call_calldata_counterexample :
    callViewCalldata 1 [] = specEthCallCalldata (addressToFelt 1) [] ∧
    callViewCalldata 1 [] ≠ specEthCallCalldata 7 [] := by
  exact ⟨rfl, by decide⟩

/-- C3 (amended): for every target address and calldata byte string,
`call_view` builds the interpreter `eth_call` calldata as exactly
`[address_as_felt, MAX_FELT, 0, 0, len(calldata), ...calldata_as_felts]`,
where the first element is the foreign (Ethereum) address embedded as a
field element — no native-account resolution is performed — `MAX_FELT` is
the maximum field element, and each calldata byte becomes one felt. -/
theorem c3_eth_call_calldata (addr : Nat) (calldata : List Nat) :
    callViewCalldata addr calldata = specEthCallCalldata (addressToFelt addr) calldata ∧
    (callViewCalldata addr calldata).take 5 =
      [addressToFelt addr, feltMax, 0, 0, calldata.length] ∧
    (callViewCalldata addr calldata).drop 5 = calldata := by
  exact ⟨rfl, rfl, rfl⟩

/-- C4, counterexample: the claim fails as stated. In the event-to-log
conversion a missing trailing high key is an error, not a 0-substitution:
the event with keys `[7, 9]` (topic-key list `[7]` after the address key
`9` is split off) fails with the "High value" error instead of producing
the topic `7` zero-padded. -/
theorem c4_odd_topics_counterexample :
    to_eth_log 1 { from_address := 1, keys := [7, 9], data := [] } none none none none none =
      .error (.OtherError "Not a convertible event: High value doesn\x27t exist") := by
  rfl

/-- C4 (amended): on an odd-length topic-key list the two paths diverge.
The receipt-assembly loop substitutes 0 for the missing trailing high and
produces, after any even prefix, a final topic equal to the trailing low
key zero-padded to 32 bytes; the event-to-log conversion (`to_eth_log`)
instead fails with an error on any event whose topic-key list (the keys
minus the trailing address key) has odd length. -/
theorem c4_odd_topics (ks : List Nat) (low : Nat) (hks : ks.length % 2 = 0)
    (hlow : low < pStark) (kak evmKey : Nat) (data : List Nat) :
    receiptTopics (ks ++ [low]) = receiptTopics ks ++ [beFixed 32 low] ∧
    to_eth_log kak { from_address := kak, keys := (ks ++ [low]) ++ [evmKey], data := data }
        none none none none none =
      .error (.OtherError "Not a convertible event: High value doesn\x27t exist") := by
  constructor
  · rw [receiptTopics, receiptTopicFelts_append ks low hks, List.map_append,
      receiptTopics, Nat.mod_eq_of_lt hlow]
    rfl
  · have hodd : (ks ++ [low]).length % 2 = 1 := by
      simp only [List.length_append, List.length_cons, List.length_nil]
      omega
    rw [to_eth_log, if_neg (fun hne => hne rfl)]
    simp only [List.getLast?_concat, List.dropLast_concat]
    rw [topicsOf_odd _ hodd]
    rfl

/-- C4, witness: concrete instance — the receipt loop turns the single
key `5` into the topic `5` zero-padded to 32 bytes, while `to_eth_log`
fails on the event with keys `[5, 9]`. -/
theorem c4_odd_topics_witness :
    receiptTopics [5] = [List.replicate 31 0 ++ [5]] ∧
    to_eth_log 1 { from_address := 1, keys := [5, 9], data := [] } none none none none none =
      .error (.OtherError "Not a convertible event: High value doesn\x27t exist") := by
  obtain ⟨h1, h2⟩ := c4_odd_topics [] 5 (by decide) (by decide) 1 9 []
  constructor
  · have h1e : receiptTopics ([] ++ [5]) = receiptTopics [] ++ [beFixed 32 5] := h1
    rw [List.nil_append] at h1e
    rw [h1e]
    decide
  · exact h2

/-- C5, counterexample: the claim fails as stated. `estimate_gas` is
`todo!()`: it panics ("not yet implemented") on every call instead of
returning a `NotSupported` error value. -/
theorem c5_estimate_gas_counterexample :
    estimate_gas {} none = .panic "not yet implemented" ∧
    estimate_gas {} none ≠ .err .NotSupported := by
  exact ⟨rfl, by decide⟩

/-- C5 (amended): for every call request and block id, `estimate_gas`
panics with the `todo!()` message "not yet implemented"; it never returns
a successful result (in particular it never silently returns zero) and
never returns an error value. -/
theorem c5_estimate_gas (callRequest : CallRequest) (blockNumber : Option BlockId) :
    estimate_gas callRequest blockNumber = .panic "not yet implemented" ∧
    (∀ n : Nat, estimate_gas callRequest blockNumber ≠ .ok n) ∧
    (∀ e : EthApiError, estimate_gas callRequest blockNumber ≠ .err e) := by
  refine ⟨rfl, fun n h => ?_, fun e h => ?_⟩
  · simp [estimate_gas] at h
  · simp [estimate_gas] at h

/-- C6, counterexample: the claim fails as stated. A per-contract lookup
that succeeds but returns a byte string whose value does not fit in 256
bits (here 33 bytes of `0xff`) hits the `unwrap` on the failed
`U256::from_str_radix` conversion: the whole call panics and no entries
are returned at all. -/
theorem c6_token_balances_counterexample :
    token_balances 5 [Except.ok (List.replicate 33 255)] =
      .panic "Failed to convert token balance to U256" := by
  rfl

/-- C6 (amended): provided every successful per-contract lookup returns a
byte string whose value fits in 256 bits (otherwise the `unwrap` on the
balance conversion panics the whole call), `token_balances` returns
exactly one entry per contract, in result order; an entry for a failed
lookup carries the error string and no balance, an entry for a successful
lookup carries the balance and no error, and one failing lookup never
affects sibling entries. -/
theorem c6_token_balances_isolation (address : Nat)
    (results : List (Except EthApiError (List Nat)))
    (hparse : ∀ bs, Except.ok bs ∈ results → beVal bs < 2 ^ 256) :
    token_balances address results = .ok
      { address := address
        tokenBalances := results.map fun r =>
          match r with
          | .ok bs =>
            { contractAddress := address, tokenBalance := some (beVal bs), error := none }
          | .error e =>
            { contractAddress := address, tokenBalance := none
              error := some ("kakarot_getTokenBalances Error: " ++ ethApiErrorText e) } } := by
  rw [token_balances, tokenBalanceEntries_eq address results hparse]

/-- C6, witness: the concrete three-contract scenario — the second lookup
errors, the result still has three entries in order, entry 2 with the
error set and no balance, entries 1 and 3 with balances. -/
theorem c6_token_balances_isolation_witness :
    token_balances 5 [Except.ok [65], Except.error (.OtherError "boom"), Except.ok [66]] =
      .ok { address := 5
            tokenBalances := [
              { contractAddress := 5, tokenBalance := some 65, error := none },
              { contractAddress := 5, tokenBalance := none
                error := some "kakarot_getTokenBalances Error: boom" },
              { contractAddress := 5, tokenBalance := some 66, error := none }] } := by
  have hparse : ∀ bs, Except.ok bs ∈
      [Except.ok (ε := EthApiError) [65], Except.error (.OtherError "boom"), Except.ok [66]] →
      beVal bs < 2 ^ 256 := by
    intro bs hbs
    simp only [List.mem_cons, List.not_mem_nil, or_false] at hbs
    rcases hbs with h1 | h2 | h3
    · cases h1; decide
    · cases h2
    · cases h3; decide
  have h := c6_token_balances_isolation 5
      [Except.ok [65], Except.error (.OtherError "boom"), Except.ok [66]] hparse
  rw [h]
  rfl

/-- C7, counterexample: the claim fails as stated. `fee_history`
reinterprets the decimal print of the block count as hexadecimal, so for
`count = 10`, `newest = 100` it returns 17 base-fee entries (not 11) and
16 gas-used-ratio entries (not 10), while `oldest` is still `100 - 10 =
90`. -/
theorem c7_fee_history_counterexample :
    (fee_history 10 (.number 100) (.ok 42)).map (fun fh => fh.baseFeePerGas.length) =
      .ok 17 ∧
    (fee_history 10 (.number 100) (.ok 42)).map (fun fh => fh.gasUsedRatio.length) =
      .ok 16 ∧
    (fee_history 10 (.number 100) (.ok 42)).map (fun fh => fh.oldestBlock) = .ok 90 := by
  exact ⟨rfl, rfl, rfl⟩

/-- C7 (amended): for a concrete newest block number `B < 2^64` and a
block count `N ≤ B` (with `N < 2^256`), `fee_history` returns `h + 1`
base-fee entries all equal to the fixed base-fee constant and `h`
gas-used-ratio entries all equal to the fixed ratio, where `h` is the
decimal print of `N` reinterpreted as hexadecimal (so `h = N` exactly when
`N < 10`); `oldest` equals `B - N` and `reward` is absent. -/
theorem c7_fee_history (blockCount newest : Nat) (pbn : Except EthApiError Nat)
    (hbc : blockCount < 2 ^ 256) (hnewest : newest < 2 ^ 64) (hle : blockCount ≤ newest) :
    fee_history blockCount (.number newest) pbn = .ok
      { baseFeePerGas := List.replicate (blockCountUsize blockCount + 1) BASE_FEE_PER_GAS
        gasUsedRatio := List.replicate (blockCountUsize blockCount) (9 / 10 : ℚ)
        oldestBlock := newest - blockCount
        reward := none } ∧
    (blockCount < 10 → blockCountUsize blockCount = blockCount) := by
  constructor
  · show Except.ok _ = _
    have holdest : (2 ^ 256 + newest % 2 ^ 256 - blockCount % 2 ^ 256) % 2 ^ 256 =
        newest - blockCount := by
      have h1 : newest % 2 ^ 256 = newest := Nat.mod_eq_of_lt (by omega)
      have h2 : blockCount % 2 ^ 256 = blockCount := Nat.mod_eq_of_lt hbc
      rw [h1, h2]
      omega
    simp only [holdest]
  · intro hsmall
    have hdigits : decDigits blockCount = [blockCount] := by
      rw [decDigits]
      cases hbc0 : blockCount with
      | zero => rfl
      | succ m =>
        show decDigitsAux (m + 1) (m + 1) = [m + 1]
        rw [decDigitsAux, if_pos (by omega)]
    rw [blockCountUsize, hdigits]
    show (if 16 * 0 + blockCount < 2 ^ 64 then 16 * 0 + blockCount else 1) = blockCount
    rw [if_pos (by omega)]
    omega

/-- C7, witness: `fee_history(count = 4, newest = 100)` yields 5 equal
base-fee entries, 4 equal ratio entries, `oldest = 96` and no reward. -/
theorem c7_fee_history_witness :
    fee_history 4 (.number 100) (.ok 0) = .ok
      { baseFeePerGas := List.replicate 5 BASE_FEE_PER_GAS
        gasUsedRatio := List.replicate 4 (9 / 10 : ℚ)
        oldestBlock := 96
        reward := none } := by
  obtain ⟨h1, h2⟩ := c7_fee_history 4 100 (.ok 0) (by norm_num) (by norm_num) (by norm_num)
  rw [h1, h2 (by norm_num)]

/-- C8 (confirmed): `safe_get_evm_address` is total — it always returns an
address — and whenever the underlying `get_evm_address` lookup errors for
any reason, the result equals bytes `[12, 32)` of the 32-byte big-endian
representation of the native account id. -/
theorem c8_safe_get_evm_address (providerResult : Except EthApiError (List Nat))
    (starknetAddress : Nat) :
    (∃ a, safe_get_evm_address providerResult starknetAddress = a) ∧
    (∀ e, get_evm_address providerResult = .error e →
      safe_get_evm_address providerResult starknetAddress =
        beVal ((beFixed 32 starknetAddress).drop 12)) := by
  refine ⟨⟨_, rfl⟩, fun e he => ?_⟩
  rw [safe_get_evm_address, he]
  rfl

/-- C8, witness: with a failing provider call, the fallback for native id
`2^200 + 77` is its low 20 big-endian bytes, i.e. `77`. -/
theorem c8_safe_get_evm_address_witness :
    safe_get_evm_address (.error (.OtherError "provider failure")) (2 ^ 200 + 77) = 77 := by
  have h := (c8_safe_get_evm_address (.error (.OtherError "provider failure"))
      (2 ^ 200 + 77)).2 (.OtherError "provider failure") rfl
  rw [h]
  decide

/-- C9 (confirmed): whenever `token_balances` succeeds, the
`contract_address` field of every returned entry equals the queried
account address (never the token contract address the lookup was issued
against), so entries cannot be associated with their token contract from
the entry itself. -/
theorem c9_token_balances_address (address : Nat)
    (results : List (Except EthApiError (List Nat))) (out : TokenBalances)
    (hok : token_balances address results = .ok out) :
    out.address = address ∧
    (out.tokenBalances.all fun tb => tb.contractAddress == address) = true := by
  rw [token_balances] at hok
  cases htb : tokenBalanceEntries address results with
  | ok entries =>
    rw [htb] at hok
    cases hok
    exact ⟨rfl, tokenBalanceEntries_address address results entries htb⟩
  | err e => rw [htb] at hok; cases hok
  | panic m => rw [htb] at hok; cases hok

/-- C9, witness: a concrete batch queried for account `9` against two
token contracts — both returned entries carry `contract_address = 9`. -/
theorem c9_token_balances_address_witness :
    (([{ contractAddress := 9, tokenBalance := some 1, error := none },
       { contractAddress := 9, tokenBalance := none
         error := some "kakarot_getTokenBalances Error: down" }] : List TokenBalance).all
      fun tb => tb.contractAddress == 9) = true := by
  exact (c9_token_balances_address 9 [Except.ok [1], Except.error (.OtherError "down")]
      { address := 9
        tokenBalances := [
          { contractAddress := 9, tokenBalance := some 1, error := none },
          { contractAddress := 9, tokenBalance := none
            error := some "kakarot_getTokenBalances Error: down" }] } rfl).2

/-- C10 (confirmed): every receipt assembled by `transaction_receipt`
carries a concrete block hash, block number and transaction hash, while
every contained log has `block_hash`, `block_number`, `transaction_hash`,
`transaction_index` and `log_index` set to `None` and `removed` set to
`false`. -/
theorem c10_receipt_log_metadata (resolve : Nat → Nat) (transactionHash : Nat)
    (status : StarknetTransactionStatus) (blockHash blockNumber : Nat)
    (events : List Event) (senderStarknetAddress fromAddress : Nat)
    (toAddress : Option Nat) :
    (transaction_receipt_invoke resolve transactionHash status blockHash blockNumber
        events senderStarknetAddress fromAddress toAddress).blockHash =
      some (beFixed 32 blockHash) ∧
    (transaction_receipt_invoke resolve transactionHash status blockHash blockNumber
        events senderStarknetAddress fromAddress toAddress).blockNumber = some blockNumber ∧
    (transaction_receipt_invoke resolve transactionHash status blockHash blockNumber
        events senderStarknetAddress fromAddress toAddress).transactionHash =
      some (beFixed 32 transactionHash) ∧
    ((transaction_receipt_invoke resolve transactionHash status blockHash blockNumber
        events senderStarknetAddress fromAddress toAddress).logs.all fun log =>
      log.blockHash == none && log.blockNumber == none && log.transactionHash == none &&
      log.transactionIndex == none && log.logIndex == none && log.removed == false) =
      true := by
  refine ⟨rfl, rfl, rfl, ?_⟩
  rw [List.all_eq_true]
  intro log hlog
  simp only [transaction_receipt_invoke, receiptLogs, List.mem_map] at hlog
  obtain ⟨e, _, rfl⟩ := hlog
  rfl

end KakarotRpc

